import Mathlib

/-!
Verification of the chatterbox inference server core against its source.

The development shallowly embeds, directly from the Python source:
  * `src/chatterbox_inference/utils/audio_utils.py` — the audio codec
    strategies (`encode_pcm_s16le`, `encode_wav_header`, `encode_wav_complete`,
    `AudioStreamEncoder`);
  * `src/tts_inference/server/zmq_server.py` — the ROUTER request
    dispatcher `_handle_request`;
  * `src/chatterbox_inference/auth/api_key.py` — `verify_api_key_zmq`;
  * `src/tts_inference/server/zmq_routes/generation_handler.py` —
    `handle_synthesize`, as a pure function from the outcome of each of its
    effectful steps to the list of frames it sends;
  * `src/chatterbox_inference/server/rest_routes/generation.py` —
    `websocket_tts`, likewise;
  * `src/tts_inference/tts/chatterbox_tts.py` — the model lifecycle
    (`initialize`, `_ensure_loaded`, `offload_model`, the inactivity monitor).

Modelling conventions: float32 sample values are embedded as rationals (the
claims under study concern buffering, framing and byte layout, not float
rounding); `numpy.astype(int16)` is truncation toward zero; Python `bytes`
are lists of naturals below 256; the external ffmpeg Vorbis encoder, a
subprocess, is an arbitrary function parameter `vEnc`; asynchronous steps
are sequentialized at their `await` points (the functions analysed contain
no interleaving-sensitive awaits, as noted at each definition).
-/

namespace Chatterbox

/-- A Python byte value (0..255). -/
abbrev Byte := Nat

/-- Truncation of a rational toward zero, the behaviour of
`numpy.ndarray.astype(np.int16)` on in-range values: `Int.tdiv` is
truncating division and `q.den` is positive. -/
def truncQ (q : ℚ) : ℤ := q.num.tdiv (q.den : ℤ)

/-- One sample through the PCM pipeline of `encode_pcm_s16le`:
`np.clip(x, -1.0, 1.0)` then `* 32767` then `astype(np.int16)`. -/
def sampleToI16 (x : ℚ) : ℤ := truncQ (max (-1) (min 1 x) * 32767)

/-- Little-endian two-byte serialization of an int16 value, as
`ndarray.tobytes()` lays it out (two's complement). -/
def i16le (v : ℤ) : List Byte :=
  let u := (v % 65536).toNat
  [u % 256, u / 256]

/-- `encode_pcm_s16le` from `audio_utils.py`: clip to [-1,1], scale by
32767, truncate to int16, serialize little-endian.  The `sample_rate`
argument of the Python function is unused there and omitted here. -/
def encode_pcm_s16le (audio : List ℚ) : List Byte :=
  (audio.map (fun x => i16le (sampleToI16 x))).flatten

/-- `struct.pack('<H', n)` for `n < 2^16`. -/
def u16le (n : Nat) : List Byte := [n % 256, n / 256 % 256]

/-- `struct.pack('<I', n)` for `n < 2^32`. -/
def u32le (n : Nat) : List Byte :=
  [n % 256, n / 256 % 256, n / 65536 % 256, n / 16777216 % 256]

/-- `encode_wav_header` from `audio_utils.py`, byte for byte: RIFF chunk,
fmt subchunk (PCM tag 1), data subchunk header.  The ASCII literals are
'RIFF', 'WAVE', 'fmt ' and 'data'. -/
def encode_wav_header (sample_rate num_channels num_samples : Nat) : List Byte :=
  let bits_per_sample := 16
  let byte_rate := sample_rate * num_channels * bits_per_sample / 8
  let block_align := num_channels * bits_per_sample / 8
  let data_size := num_samples * num_channels * bits_per_sample / 8
  [82, 73, 70, 70] ++ u32le (36 + data_size) ++ [87, 65, 86, 69] ++
    [102, 109, 116, 32] ++ u32le 16 ++ u16le 1 ++ u16le num_channels ++
    u32le sample_rate ++ u32le byte_rate ++ u16le block_align ++
    u16le bits_per_sample ++ [100, 97, 116, 97] ++ u32le data_size

/-- `encode_wav_complete` from `audio_utils.py`: header for `len(audio)`
mono samples followed by the 16-bit PCM payload. -/
def encode_wav_complete (audio : List ℚ) (sample_rate : Nat) : List Byte :=
  encode_wav_header sample_rate 1 audio.length ++ encode_pcm_s16le audio

/-- The three audio formats accepted by `AudioStreamEncoder`. -/
inductive AudioFormat where
  | pcm
  | wav
  | vorbis
  deriving DecidableEq, Repr

/-- The type of the external Vorbis encoder (`encode_vorbis_complete`
hands the concatenated samples to an ffmpeg subprocess at fixed quality;
the claims treat its output as opaque bytes). -/
abbrev VorbisEnc := List ℚ → Nat → List Byte

/-- The state of an `AudioStreamEncoder`: its constructor arguments and
the `_accumulated_chunks` list. -/
structure AudioStreamEncoder where
  audio_format : AudioFormat
  sample_rate : Nat
  accumulated_chunks : List (List ℚ)
  deriving Repr

/-- `AudioStreamEncoder.__init__`. -/
def mkEncoder (f : AudioFormat) (sr : Nat) : AudioStreamEncoder := ⟨f, sr, []⟩

/-- `AudioStreamEncoder.encode_chunk`: PCM encodes and returns at once;
WAV and Vorbis append a copy of the chunk to `_accumulated_chunks` and
return empty bytes. -/
def encode_chunk (enc : AudioStreamEncoder) (audio : List ℚ) :
    AudioStreamEncoder × List Byte :=
  match enc.audio_format with
  | .pcm => (enc, encode_pcm_s16le audio)
  | _ => ({ enc with accumulated_chunks := enc.accumulated_chunks ++ [audio] }, [])

/-- `AudioStreamEncoder.finalize`: if chunks were accumulated, concatenate
them and run the one-shot WAV or Vorbis encoder; otherwise (and for PCM)
return empty bytes. -/
def finalize (vEnc : VorbisEnc) (enc : AudioStreamEncoder) : List Byte :=
  if enc.accumulated_chunks = [] then []
  else
    match enc.audio_format with
    | .wav => encode_wav_complete enc.accumulated_chunks.flatten enc.sample_rate
    | .vorbis => vEnc enc.accumulated_chunks.flatten enc.sample_rate
    | .pcm => []

/-- `AudioStreamEncoder.encode_complete`: one-shot encoding of a complete
buffer in the encoder's format. -/
def encode_complete (vEnc : VorbisEnc) (enc : AudioStreamEncoder)
    (audio : List ℚ) : List Byte :=
  match enc.audio_format with
  | .pcm => encode_pcm_s16le audio
  | .wav => encode_wav_complete audio enc.sample_rate
  | .vorbis => vEnc audio enc.sample_rate

/-- Feed a chunk sequence through `encode_chunk`, collecting the per-call
return values and the final encoder state. -/
def streamRun (enc : AudioStreamEncoder) :
    List (List ℚ) → AudioStreamEncoder × List (List Byte)
  | [] => (enc, [])
  | c :: cs =>
    let r := encode_chunk enc c
    let rest := streamRun r.1 cs
    (rest.1, r.2 :: rest.2)

/-- All bytes produced by streaming a chunk sequence through a fresh
encoder: the concatenated per-chunk outputs followed by `finalize()`. -/
def streamBytes (vEnc : VorbisEnc) (f : AudioFormat) (sr : Nat)
    (C : List (List ℚ)) : List Byte :=
  let r := streamRun (mkEncoder f sr) C
  r.2.flatten ++ finalize vEnc r.1

/-- Little-endian decode of the four bytes of a buffer starting at `i`
(out-of-range positions read as 0). -/
def field32 (l : List Byte) (i : Nat) : Nat :=
  l.getD i 0 + 256 * l.getD (i + 1) 0 + 65536 * l.getD (i + 2) 0 +
    16777216 * l.getD (i + 3) 0

/-- Little-endian decode of the two bytes of a buffer starting at `i`. -/
def field16 (l : List Byte) (i : Nat) : Nat :=
  l.getD i 0 + 256 * l.getD (i + 1) 0

lemma encode_pcm_append (a b : List ℚ) :
    encode_pcm_s16le (a ++ b) = encode_pcm_s16le a ++ encode_pcm_s16le b := by
  simp [encode_pcm_s16le]

lemma encode_pcm_flatten (C : List (List ℚ)) :
    encode_pcm_s16le C.flatten = (C.map encode_pcm_s16le).flatten := by
  induction C with
  | nil => rfl
  | cons c cs ih => simp [List.flatten_cons, encode_pcm_append, ih]

/-- On a PCM encoder, `encode_chunk` is the identity on the state. -/
lemma streamRun_pcm (sr : Nat) (acc C : List (List ℚ)) :
    streamRun ⟨.pcm, sr, acc⟩ C =
      (⟨.pcm, sr, acc⟩, C.map encode_pcm_s16le) := by
  induction C with
  | nil => rfl
  | cons c cs ih => simp [streamRun, encode_chunk, ih]

/-- On a WAV or Vorbis encoder, `encode_chunk` only accumulates: the
per-call outputs are all empty and the state collects the chunks. -/
lemma streamRun_accum (f : AudioFormat) (hf : f ≠ .pcm) (sr : Nat)
    (acc C : List (List ℚ)) :
    streamRun ⟨f, sr, acc⟩ C =
      (⟨f, sr, acc ++ C⟩, C.map fun _ => []) := by
  induction C generalizing acc with
  | nil => simp [streamRun]
  | cons c cs ih =>
    cases f with
    | pcm => exact absurd rfl hf
    | wav => simp [streamRun, encode_chunk, ih]
    | vorbis => simp [streamRun, encode_chunk, ih]

lemma streamBytes_pcm (vEnc : VorbisEnc) (sr : Nat) (C : List (List ℚ)) :
    streamBytes vEnc .pcm sr C = (C.map encode_pcm_s16le).flatten := by
  show (streamRun ⟨.pcm, sr, []⟩ C).2.flatten ++
      finalize vEnc (streamRun ⟨.pcm, sr, []⟩ C).1 = _
  rw [streamRun_pcm]
  simp [finalize]

lemma streamBytes_accum (vEnc : VorbisEnc) (f : AudioFormat) (hf : f ≠ .pcm)
    (sr : Nat) (C : List (List ℚ)) :
    streamBytes vEnc f sr C = finalize vEnc ⟨f, sr, C⟩ := by
  show (streamRun (mkEncoder f sr) C).2.flatten ++
      finalize vEnc (streamRun (mkEncoder f sr) C).1 = _
  have h : mkEncoder f sr = ⟨f, sr, []⟩ := rfl
  rw [h, streamRun_accum f hf sr [] C]
  simp

/-- C1.  Streaming accumulation is byte-for-byte equivalent to one-shot
encoding: for PCM on every chunk sequence, and for WAV/Vorbis on every
non-empty chunk sequence.  (On the empty sequence, WAV and Vorbis
streaming yields empty bytes while one-shot encoding does not: see the
counterexample.) -/
theorem claim_C1_stream_oneshot_equiv (vEnc : VorbisEnc) (sr : Nat)
    (C : List (List ℚ)) :
    streamBytes vEnc .pcm sr C =
        encode_complete vEnc (mkEncoder .pcm sr) C.flatten ∧
      (C ≠ [] → streamBytes vEnc .wav sr C =
        encode_complete vEnc (mkEncoder .wav sr) C.flatten) ∧
      (C ≠ [] → streamBytes vEnc .vorbis sr C =
        encode_complete vEnc (mkEncoder .vorbis sr) C.flatten) := by
  refine ⟨?_, ?_, ?_⟩
  · rw [streamBytes_pcm]
    simp [encode_complete, mkEncoder, encode_pcm_flatten]
  · intro hC
    rw [streamBytes_accum vEnc .wav (by simp) sr C]
    simp [finalize, encode_complete, mkEncoder, hC]
  · intro hC
    rw [streamBytes_accum vEnc .vorbis (by simp) sr C]
    simp [finalize, encode_complete, mkEncoder, hC]

/-- C1, counterexample to the claim as stated: on the empty chunk
sequence in WAV format, streaming then finalizing yields empty bytes,
while one-shot encoding of the empty buffer yields a 44-byte header-only
WAV file. -/
theorem claim_C1_cex :
    streamBytes (fun _ _ => []) .wav 8000 [] ≠
      encode_complete (fun _ _ => []) (mkEncoder .wav 8000)
        (List.flatten []) := by
  decide

/-- C1, witness: the amended equivalence instantiated at WAV, sample rate
8000, and the non-empty chunk sequence consisting of one empty chunk. -/
theorem claim_C1_witness :
    ([[]] : List (List ℚ)) ≠ [] ∧
      streamBytes (fun _ _ => []) .wav 8000 [[]] =
        encode_complete (fun _ _ => []) (mkEncoder .wav 8000)
          (List.flatten [[]]) :=
  ⟨by simp,
    (claim_C1_stream_oneshot_equiv (fun _ _ => []) 8000 [[]]).2.1 (by simp)⟩

lemma encode_pcm_length (audio : List ℚ) :
    (encode_pcm_s16le audio).length = 2 * audio.length := by
  induction audio with
  | nil => rfl
  | cons x xs ih =>
    show (i16le (sampleToI16 x) ++ encode_pcm_s16le xs).length = _
    rw [List.length_append, ih]
    simp [i16le]
    omega

/-- The header built by `encode_wav_header` for one channel, with the
computed sizes in closed form. -/
lemma encode_wav_header_mono (sr N : Nat) :
    encode_wav_header sr 1 N =
      [82, 73, 70, 70] ++ u32le (36 + 2 * N) ++ [87, 65, 86, 69] ++
        [102, 109, 116, 32] ++ u32le 16 ++ u16le 1 ++ u16le 1 ++
        u32le sr ++ u32le (2 * sr) ++ u16le 2 ++ u16le 16 ++
        [100, 97, 116, 97] ++ u32le (2 * N) := by
  have h1 : ∀ n : Nat, n * 16 / 8 = 2 * n := fun n => by omega
  simp [encode_wav_header, h1]

/-- C7.  For a buffer of `N` float samples at rate `R`, `encode_wav_complete`
produces a 44-byte RIFF/WAVE header — PCM format tag 1, 1 channel, rate `R`,
16 bits per sample, byte rate `2*R`, block align 2 — whose data subchunk
size field decodes to `2*N` and whose RIFF size field decodes to `36 + 2*N`,
followed by the 16-bit PCM payload.  The bounds are the ranges accepted by
`struct.pack('<I', ...)`. -/
theorem claim_C7_wav_header_correct (sr N : Nat) (samples : List ℚ)
    (out : List Byte) (hN : samples.length = N)
    (hout : out = encode_wav_complete samples sr)
    (hsize : 36 + 2 * N < 4294967296) (hsr : 2 * sr < 4294967296) :
    out.length = 44 + 2 * N ∧
      out.take 4 = [82, 73, 70, 70] ∧
      field32 out 4 = 36 + 2 * N ∧
      ((out.drop 8).take 4 = [87, 65, 86, 69] ∧
        (out.drop 12).take 4 = [102, 109, 116, 32]) ∧
      field32 out 16 = 16 ∧
      field16 out 20 = 1 ∧
      field16 out 22 = 1 ∧
      field32 out 24 = sr ∧
      field32 out 28 = 2 * sr ∧
      field16 out 32 = 2 ∧
      field16 out 34 = 16 ∧
      (out.drop 36).take 4 = [100, 97, 116, 97] ∧
      field32 out 40 = 2 * N ∧
      out.drop 44 = encode_pcm_s16le samples := by
  subst hout
  subst hN
  rw [encode_wav_complete, encode_wav_header_mono]
  simp only [u32le, u16le, List.cons_append, List.nil_append]
  refine ⟨?_, ?_, ?_, ⟨?_, ?_⟩, ?_, ?_, ?_, ?_, ?_, ?_, ?_, ?_, ?_, ?_⟩ <;>
    simp [field32, field16, encode_pcm_length] <;> omega

/-- C7, witness: the theorem applied to the empty sample buffer at rate
24000. -/
theorem claim_C7_witness :
    (List.length ([] : List ℚ) = 0 ∧ 36 + 2 * 0 < 4294967296 ∧
        2 * 24000 < 4294967296) ∧
      field32 (encode_wav_complete [] 24000) 40 = 2 * 0 ∧
      field32 (encode_wav_complete [] 24000) 4 = 36 + 2 * 0 :=
  ⟨⟨rfl, by decide, by decide⟩,
    (claim_C7_wav_header_correct 24000 0 [] _ rfl rfl (by decide)
        (by decide)).2.2.2.2.2.2.2.2.2.2.2.2.1,
    (claim_C7_wav_header_correct 24000 0 [] _ rfl rfl (by decide)
        (by decide)).2.2.1⟩

/-- C8, amended.  The PCM strategy is stateless: every `encode_chunk` call
on a PCM encoder leaves the state untouched and immediately returns the
chunk clipped to [-1,1], scaled by 32767, truncated to int16 and
serialized little-endian (2 bytes per sample, hence non-empty exactly for
non-empty chunks); a whole PCM streaming run accumulates nothing and its
`finalize()` returns empty bytes. -/
theorem claim_C8_pcm_stateless (vEnc : VorbisEnc) (sr : Nat)
    (enc : AudioStreamEncoder) (c : List ℚ) (C : List (List ℚ))
    (h : enc.audio_format = .pcm) :
    encode_chunk enc c = (enc, encode_pcm_s16le c) ∧
      encode_pcm_s16le c =
        (c.map fun x => i16le (truncQ (max (-1) (min 1 x) * 32767))).flatten ∧
      (encode_chunk enc c).2.length = 2 * c.length ∧
      (c ≠ [] → (encode_chunk enc c).2 ≠ []) ∧
      streamRun (mkEncoder .pcm sr) C =
        (mkEncoder .pcm sr, C.map encode_pcm_s16le) ∧
      finalize vEnc (streamRun (mkEncoder .pcm sr) C).1 = [] := by
  have he : encode_chunk enc c = (enc, encode_pcm_s16le c) := by
    unfold encode_chunk
    rw [h]
  have hrun : streamRun (mkEncoder .pcm sr) C =
      (mkEncoder .pcm sr, C.map encode_pcm_s16le) := streamRun_pcm sr [] C
  refine ⟨he, rfl, ?_, ?_, hrun, ?_⟩
  · rw [he]
    exact encode_pcm_length c
  · intro hc
    rw [he]
    intro habs
    have hlen := congrArg List.length habs
    rw [encode_pcm_length] at hlen
    simp at hlen
    exact hc hlen
  · rw [hrun]
    simp [finalize, mkEncoder]

/-- C8, counterexample to the claim as stated: a call on an empty chunk
returns empty bytes, so the per-call outputs are not non-empty for every
input chunk sequence. -/
theorem claim_C8_cex : (encode_chunk (mkEncoder .pcm 24000) []).2 = [] := by
  decide

/-- C8, witness: the amended theorem at a one-sample chunk, whose output
is non-empty. -/
theorem claim_C8_witness :
    (mkEncoder .pcm 24000).audio_format = .pcm ∧ ([(0 : ℚ)] ≠ []) ∧
      (encode_chunk (mkEncoder .pcm 24000) [(0 : ℚ)]).2 ≠ [] :=
  ⟨rfl, by simp,
    (claim_C8_pcm_stateless (fun _ _ => []) 24000 (mkEncoder .pcm 24000)
        [(0 : ℚ)] [] rfl).2.2.2.1 (by simp)⟩

/-- The request handlers reachable from `ZMQServer._handle_request`. -/
inductive HandlerId where
  | synthesize
  | list_voices
  | upload_voice
  | delete_voice
  | health
  | ready
  | model_unload
  deriving DecidableEq, Repr

/-- The routing table of `_handle_request`: the value of the `type` field
selects the handler; anything else is unknown. -/
def dispatchOf (t : String) : Option HandlerId :=
  if t = "synthesize" then some .synthesize
  else if t = "list_voices" then some .list_voices
  else if t = "upload_voice" then some .upload_voice
  else if t = "delete_voice" then some .delete_voice
  else if t = "health" then some .health
  else if t = "ready" then some .ready
  else if t = "model_unload" then some .model_unload
  else none

/-- `verify_api_key_zmq` from `api_key.py`: a missing or empty key fails,
a key different from the configured secret fails. -/
def verify_api_key_zmq (api_key : Option String) (secret : String) : Bool :=
  match api_key with
  | none => false
  | some k => if k = "" then false else k == secret

/-- The fields of the parsed JSON message that `_handle_request` reads:
the `api_key` field and the `type` field (absent `type` defaults to
`synthesize` via `dict.pop`). -/
structure JsonMsg where
  api_key : Option String
  reqType : Option String

/-- `voice_config` of the hardcoded plain-text fallback request. -/
structure VoiceConfig where
  voice_id : String
  speed : ℚ
  exaggeration : ℚ
  cfg_weight : ℚ
  deriving DecidableEq, Repr

/-- The synthesis request dictionary the router builds for a plain-text
payload. -/
structure FallbackRequest where
  text : String
  voice_mode : String
  audio_format : String
  voice_config : VoiceConfig
  use_turbo : Bool
  deriving DecidableEq, Repr

/-- The hardcoded request `_handle_request` wraps a plain-text payload in. -/
def fallbackRequest (text : String) : FallbackRequest :=
  ⟨text, "clone", "pcm", ⟨"solar", 1, 15 / 100, 1⟩, false⟩

/-- What one `_handle_request` invocation does with an inbound payload:
either it sends an error frame and runs no handler, or it dispatches to a
handler.  `authChecked` records whether `verify_api_key_zmq` was invoked
on the way; `fallback` carries the wrapped request on the plain-text
path. -/
inductive RouterOutcome where
  | errorFrame (msg : String)
  | dispatch (h : HandlerId) (authChecked : Bool) (fallback : Option FallbackRequest)
  deriving DecidableEq, Repr

/-- The byte values stripped by Python `bytes.strip()`. -/
def isWsByte (b : Byte) : Bool :=
  b == 32 || b == 9 || b == 10 || b == 13 || b == 11 || b == 12

/-- Python `bytes.strip()`. -/
def stripBytes (p : List Byte) : List Byte :=
  ((p.dropWhile isWsByte).reverse.dropWhile isWsByte).reverse

/-- `ZMQServer._handle_request`, as a function of the raw payload.  UTF-8
decoding and JSON parsing are oracles passed in as functions; a payload
whose decode fails raises `UnicodeDecodeError` past the inner
`except json.JSONDecodeError` into the generic handler, which sends the
exception text as an error frame. -/
def handle_request (decodeUtf8 : List Byte → Option String)
    (parseJson : String → Option JsonMsg) (secret : String)
    (payload : List Byte) : RouterOutcome :=
  if payload = [] ∨ stripBytes payload = [] then .errorFrame "Empty request data"
  else
    match decodeUtf8 payload with
    | none => .errorFrame "UnicodeDecodeError"
    | some s =>
      match parseJson s with
      | none => .dispatch .synthesize false (some (fallbackRequest s))
      | some j =>
        if verify_api_key_zmq j.api_key secret then
          let t := j.reqType.getD "synthesize"
          match dispatchOf t with
          | some h => .dispatch h true none
          | none => .errorFrame ("Unknown request type: " ++ t)
        else .errorFrame "Invalid or missing API key"

/-- C3, amended.  On the JSON path no handler at all executes — health and
ready included, they are not exempt — unless the `api_key` field validates
against the configured secret; and a payload that fails JSON parsing is
dispatched to the synthesize handler with no API-key check performed. -/
theorem claim_C3_auth_before_dispatch (decodeUtf8 : List Byte → Option String)
    (parseJson : String → Option JsonMsg) (secret : String)
    (payload : List Byte) :
    (∀ s j h ac fb, decodeUtf8 payload = some s → parseJson s = some j →
        handle_request decodeUtf8 parseJson secret payload = .dispatch h ac fb →
        verify_api_key_zmq j.api_key secret = true ∧ ac = true) ∧
      (∀ s, decodeUtf8 payload = some s → parseJson s = none →
        payload ≠ [] → stripBytes payload ≠ [] →
        handle_request decodeUtf8 parseJson secret payload =
          .dispatch .synthesize false (some (fallbackRequest s))) := by
  constructor
  · intro s j h ac fb hdec hjson hout
    unfold handle_request at hout
    by_cases hemp : payload = [] ∨ stripBytes payload = []
    · simp [hemp] at hout
    · rw [if_neg hemp, hdec] at hout
      simp only [hjson] at hout
      by_cases hv : verify_api_key_zmq j.api_key secret = true
      · refine ⟨hv, ?_⟩
        rw [if_pos hv] at hout
        cases hd : dispatchOf (j.reqType.getD "synthesize") with
        | none => rw [hd] at hout; exact absurd hout (by simp)
        | some h2 => rw [hd] at hout; exact (RouterOutcome.dispatch.injEq _ _ _ _ _ _).mp hout |>.2.1.symm
      · rw [if_neg hv] at hout
        exact absurd hout (by simp)
  · intro s hdec hjson hne hns
    unfold handle_request
    rw [if_neg (by simp [hne, hns]), hdec]
    simp [hjson]

/-- C3, counterexample to the claim as stated: a plain-text payload (here
the five bytes of "hello", with a parser on which it is not JSON) makes
the router run the synthesize handler — not a health check — although no
auth token was presented, let alone validated. -/
theorem claim_C3_cex :
    handle_request (fun _ => some "hello") (fun _ => none) "secret-key"
        [104, 101, 108, 108, 111] =
      .dispatch .synthesize false (some (fallbackRequest "hello")) ∧
      verify_api_key_zmq none "secret-key" = false := by
  constructor
  · rfl
  · rfl

/-- C3, witness: the amended theorem at a JSON request with a valid key
and at a plain-text payload. -/
theorem claim_C3_witness :
    ((fun _ : List Byte => some "x") [120] = some "x" ∧
        (fun _ : String => (none : Option JsonMsg)) "x" = none ∧
        ([120] : List Byte) ≠ [] ∧ stripBytes [120] ≠ []) ∧
      handle_request (fun _ => some "x") (fun _ => none) "sk" [120] =
        .dispatch .synthesize false (some (fallbackRequest "x")) :=
  ⟨⟨rfl, rfl, by decide, by decide⟩,
    (claim_C3_auth_before_dispatch (fun _ => some "x") (fun _ => none) "sk"
        [120]).2 "x" rfl rfl (by decide) (by decide)⟩

/-- C10, amended.  A payload that decodes as UTF-8, contains at least one
non-whitespace byte, and fails to parse as JSON is wrapped into a
plain-text synthesis request with exactly the hardcoded defaults —
voice_mode "clone", voice_id "solar", audio_format "pcm", speed 1.0,
exaggeration 0.15, cfg_weight 1, use_turbo false — and dispatched to the
synthesize handler with no API-key check.  (A non-empty but all-whitespace
payload is instead rejected as empty, and a payload that does not decode
as UTF-8 yields an error frame: see the counterexample.) -/
theorem claim_C10_plaintext_fallback (decodeUtf8 : List Byte → Option String)
    (parseJson : String → Option JsonMsg) (secret : String)
    (payload : List Byte) (s : String) (hne : payload ≠ [])
    (hns : stripBytes payload ≠ []) (hdec : decodeUtf8 payload = some s)
    (hjson : parseJson s = none) :
    handle_request decodeUtf8 parseJson secret payload =
      .dispatch .synthesize false
        (some ⟨s, "clone", "pcm", ⟨"solar", 1, 15 / 100, 1⟩, false⟩) := by
  unfold handle_request
  rw [if_neg (by simp [hne, hns]), hdec]
  simp [hjson, fallbackRequest]

/-- C10, counterexample to the claim as stated: the payload consisting of
a single space byte is non-empty and fails to parse as JSON, yet the
router answers "Empty request data" and dispatches no handler at all. -/
theorem claim_C10_cex :
    ([32] : List Byte) ≠ [] ∧
      (fun _ : String => (none : Option JsonMsg)) " " = none ∧
      handle_request (fun _ => some " ") (fun _ => none) "sk" [32] =
        .errorFrame "Empty request data" := by
  refine ⟨by decide, rfl, ?_⟩
  rfl

/-- C10, witness: the amended theorem at the payload "hi". -/
theorem claim_C10_witness :
    (([104, 105] : List Byte) ≠ [] ∧ stripBytes [104, 105] ≠ []) ∧
      handle_request (fun _ => some "hi") (fun _ => none) "sk" [104, 105] =
        .dispatch .synthesize false
          (some ⟨"hi", "clone", "pcm", ⟨"solar", 1, 15 / 100, 1⟩, false⟩) :=
  ⟨⟨by decide, by decide⟩,
    claim_C10_plaintext_fallback (fun _ => some "hi") (fun _ => none) "sk"
      [104, 105] "hi" (by decide) (by decide) rfl rfl⟩

/-- The fields of a parsed `TTSRequest` that the two generation handlers
read. -/
structure TTSReq where
  voice_id : String
  voice_mode : String
  audio_format : AudioFormat
  sample_rate : Option Nat
  deriving DecidableEq, Repr

/-- One frame sent back over the ROUTER socket by `handle_synthesize`:
the `msg_type` byte-string together with the payload fields the handler
puts in it. -/
inductive Frame where
  | metadata (sample_rate : Nat) (audio_format : AudioFormat)
  | audio (data : List Byte)
  | complete (chunks : Nat)
  | error (msg : String)
  deriving DecidableEq, Repr

def Frame.isMetadata : Frame → Bool
  | .metadata _ _ => true
  | _ => false

def Frame.isAudio : Frame → Bool
  | .audio _ => true
  | _ => false

def Frame.isComplete : Frame → Bool
  | .complete _ => true
  | _ => false

def Frame.isError : Frame → Bool
  | .error _ => true
  | _ => false

/-- The chunk loop of `handle_synthesize`: encode each chunk, send the
result as an `audio` frame only when it is non-empty, and count the sent
frames. -/
def zmqStreamLoop (enc : AudioStreamEncoder) :
    List (List ℚ) → AudioStreamEncoder × List Frame × Nat
  | [] => (enc, [], 0)
  | c :: cs =>
    let r := encode_chunk enc c
    let rest := zmqStreamLoop r.1 cs
    if r.2 = [] then (rest.1, rest.2.1, rest.2.2)
    else (rest.1, .audio r.2 :: rest.2.1, rest.2.2 + 1)

/-- `handle_synthesize` from `zmq_routes/generation_handler.py`, as a
function from the outcome of each effectful step to the frames it sends:
`parse` is the result of `TTSRequest(**request_dict)` (an exception
carries its message), `voiceRef` the result of `load_voice_reference`,
`chunks` the audio chunks the synthesis stream yields before either
ending normally (`streamErr = none`) or raising (`streamErr = some msg`).
An exception anywhere in the body is caught by the handler's single
`except` clause, which sends one error frame; a mid-stream exception thus
skips finalize and the completion frame.  The function is sequential: the
handler's awaits are message sends, which introduce no competing writer
to its local state. -/
def handle_synthesize (vEnc : VorbisEnc) (engineSr : Nat)
    (parse : Except String TTSReq) (voiceRef : Option (List ℚ))
    (chunks : List (List ℚ)) (streamErr : Option String) : List Frame :=
  match parse with
  | .error e => [.error e]
  | .ok req =>
    match voiceRef with
    | none => [.error ("Voice not found in database: " ++ req.voice_id)]
    | some _ =>
      let sr := req.sample_rate.getD engineSr
      let r := zmqStreamLoop (mkEncoder req.audio_format sr) chunks
      .metadata sr req.audio_format ::
        (r.2.1 ++
          match streamErr with
          | some m => [.error m]
          | none =>
            let fin := finalize vEnc r.1
            if fin = [] then [.complete r.2.2]
            else [.audio fin, .complete (r.2.2 + 1)])

lemma Frame.isAudio_not_other {g : Frame} (h : g.isAudio = true) :
    g.isError = false ∧ g.isComplete = false ∧ g.isMetadata = false := by
  cases g <;> simp_all [Frame.isAudio, Frame.isError, Frame.isComplete,
    Frame.isMetadata]

lemma zmqStreamLoop_audio (C : List (List ℚ)) (enc : AudioStreamEncoder) :
    ∀ g ∈ (zmqStreamLoop enc C).2.1, g.isAudio = true := by
  induction C generalizing enc with
  | nil => simp [zmqStreamLoop]
  | cons c cs ih =>
    intro g hg
    simp only [zmqStreamLoop] at hg
    by_cases h : (encode_chunk enc c).2 = []
    · rw [if_pos h] at hg
      exact ih _ g hg
    · rw [if_neg h] at hg
      rcases List.mem_cons.mp hg with rfl | hg2
      · rfl
      · exact ih _ g hg2

/-- Either the whole response is a single error frame, or it starts with
the metadata frame. -/
lemma handle_synthesize_shape (vEnc : VorbisEnc) (engineSr : Nat)
    (parse : Except String TTSReq) (voiceRef : Option (List ℚ))
    (chunks : List (List ℚ)) (streamErr : Option String) :
    (∃ e, handle_synthesize vEnc engineSr parse voiceRef chunks streamErr =
        [Frame.error e]) ∨
      (∃ sr fmt rest,
        handle_synthesize vEnc engineSr parse voiceRef chunks streamErr =
          Frame.metadata sr fmt :: rest) := by
  cases parse with
  | error e => exact .inl ⟨e, rfl⟩
  | ok req =>
    cases voiceRef with
    | none => exact .inl ⟨_, rfl⟩
    | some ref => exact .inr ⟨_, _, _, rfl⟩

/-- No response of the handler contains both an error frame and a
complete frame. -/
lemma handle_synthesize_excl (vEnc : VorbisEnc) (engineSr : Nat)
    (parse : Except String TTSReq) (voiceRef : Option (List ℚ))
    (chunks : List (List ℚ)) (streamErr : Option String) :
    (∀ g ∈ handle_synthesize vEnc engineSr parse voiceRef chunks streamErr,
        g.isComplete = false) ∨
      (∀ g ∈ handle_synthesize vEnc engineSr parse voiceRef chunks streamErr,
        g.isError = false) := by
  cases parse with
  | error e => exact .inl (by simp [handle_synthesize, Frame.isComplete])
  | ok req =>
    cases voiceRef with
    | none => exact .inl (by simp [handle_synthesize, Frame.isComplete])
    | some ref =>
      cases streamErr with
      | some m =>
        refine .inl ?_
        intro g hg
        simp only [handle_synthesize, List.mem_cons, List.mem_append,
          List.mem_singleton, List.not_mem_nil, or_false] at hg
        rcases hg with rfl | hg | rfl
        · rfl
        · exact (Frame.isAudio_not_other (zmqStreamLoop_audio _ _ g hg)).2.1
        · rfl
      | none =>
        refine .inr ?_
        intro g hg
        simp only [handle_synthesize, List.mem_cons, List.mem_append] at hg
        rcases hg with rfl | hg | hg
        · rfl
        · exact (Frame.isAudio_not_other (zmqStreamLoop_audio _ _ g hg)).1
        · by_cases hfin : finalize vEnc
              (zmqStreamLoop (mkEncoder req.audio_format
                (req.sample_rate.getD engineSr)) chunks).1 = []
          · rw [if_pos hfin] at hg
            rcases List.mem_singleton.mp hg with rfl
            rfl
          · rw [if_neg hfin] at hg
            simp only [List.mem_cons, List.mem_singleton, List.not_mem_nil,
              or_false] at hg
            rcases hg with rfl | rfl
            · rfl
            · rfl

/-- C2.  In every response of `handle_synthesize`, no audio frame precedes
the metadata frame; and when the synthesis stream raises mid-stream (on a
parsed request with a resolved voice), the response carries exactly one
error frame — with the exception's message — and no complete frame; and in
no response does a complete frame follow an error frame. -/
theorem claim_C2_frame_order (vEnc : VorbisEnc) (engineSr : Nat)
    (parse : Except String TTSReq) (voiceRef : Option (List ℚ))
    (chunks : List (List ℚ)) (streamErr : Option String)
    (frames : List Frame)
    (hf : frames = handle_synthesize vEnc engineSr parse voiceRef chunks
      streamErr) :
    (∀ pre d rest, frames = pre ++ Frame.audio d :: rest →
        ∃ sr fmt, Frame.metadata sr fmt ∈ pre) ∧
      (∀ req ref m, parse = .ok req → voiceRef = some ref →
        streamErr = some m →
        (frames.filter Frame.isError).length = 1 ∧
          (frames.filter Frame.isComplete).length = 0 ∧
          Frame.error m ∈ frames) ∧
      (∀ pre m mid n rest,
        frames = pre ++ Frame.error m :: mid ++ Frame.complete n :: rest →
        False) := by
  refine ⟨?_, ?_, ?_⟩
  · intro pre d rest h
    rcases handle_synthesize_shape vEnc engineSr parse voiceRef chunks
        streamErr with ⟨e, he⟩ | ⟨sr, fmt, rest0, hm⟩
    · rw [hf, he] at h
      cases pre <;> simp_all
    · rw [hf, hm] at h
      cases pre with
      | nil => simp at h
      | cons a pre2 =>
        rw [List.cons_append] at h
        injection h with h1 h2
        subst h1
        exact ⟨sr, fmt, List.mem_cons_self _ _⟩
  · intro req ref m hp hv hm
    subst hp
    subst hv
    subst hm
    rw [hf]
    simp only [handle_synthesize]
    have hall := zmqStreamLoop_audio chunks
      (mkEncoder req.audio_format (req.sample_rate.getD engineSr))
    set fs := (zmqStreamLoop (mkEncoder req.audio_format
      (req.sample_rate.getD engineSr)) chunks).2.1 with hfs
    have hfe : fs.filter Frame.isError = [] := by
      rw [List.filter_eq_nil_iff]
      intro g hg
      simp [(Frame.isAudio_not_other (hall g hg)).1]
    have hfc : fs.filter Frame.isComplete = [] := by
      rw [List.filter_eq_nil_iff]
      intro g hg
      simp [(Frame.isAudio_not_other (hall g hg)).2.1]
    refine ⟨?_, ?_, ?_⟩
    · simp [List.filter_append, hfe, Frame.isError, Frame.isMetadata]
    · simp [List.filter_append, hfc, Frame.isComplete, Frame.isMetadata]
    · simp
  · intro pre m mid n rest h
    rcases handle_synthesize_excl vEnc engineSr parse voiceRef chunks
        streamErr with hnc | hne
    · have : Frame.complete n ∈ handle_synthesize vEnc engineSr parse
          voiceRef chunks streamErr := by
        rw [← hf, h]
        simp
      simpa [Frame.isComplete] using hnc _ this
    · have : Frame.error m ∈ handle_synthesize vEnc engineSr parse
          voiceRef chunks streamErr := by
        rw [← hf, h]
        simp
      simpa [Frame.isError] using hne _ this

/-- C2, witness: the theorem at a parsed PCM request with a resolved
voice whose stream raises immediately. -/
theorem claim_C2_witness :
    ((Except.ok ⟨"v1", "clone", .pcm, none⟩ : Except String TTSReq) =
        .ok ⟨"v1", "clone", .pcm, none⟩ ∧
      (some [] : Option (List ℚ)) = some [] ∧
      (some "boom" : Option String) = some "boom") ∧
      ((handle_synthesize (fun _ _ => []) 24000
          (.ok ⟨"v1", "clone", .pcm, none⟩) (some []) [] (some "boom"))
            |>.filter Frame.isError).length = 1 ∧
      ((handle_synthesize (fun _ _ => []) 24000
          (.ok ⟨"v1", "clone", .pcm, none⟩) (some []) [] (some "boom"))
            |>.filter Frame.isComplete).length = 0 ∧
      Frame.error "boom" ∈ handle_synthesize (fun _ _ => []) 24000
        (.ok ⟨"v1", "clone", .pcm, none⟩) (some []) [] (some "boom") :=
  ⟨⟨rfl, rfl, rfl⟩,
    (claim_C2_frame_order (fun _ _ => []) 24000
        (.ok ⟨"v1", "clone", .pcm, none⟩) (some []) [] (some "boom") _
        rfl).2.1 ⟨"v1", "clone", .pcm, none⟩ [] "boom" rfl rfl rfl⟩

/-- C9.  When the request parses but the voice id does not resolve, the
client receives exactly one frame: an error frame whose message names the
voice id; in particular no metadata, audio or complete frame is sent. -/
theorem claim_C9_unknown_voice (vEnc : VorbisEnc) (engineSr : Nat)
    (parse : Except String TTSReq) (voiceRef : Option (List ℚ))
    (chunks : List (List ℚ)) (streamErr : Option String) (req : TTSReq)
    (hp : parse = .ok req) (hv : voiceRef = none) :
    handle_synthesize vEnc engineSr parse voiceRef chunks streamErr =
        [Frame.error ("Voice not found in database: " ++ req.voice_id)] ∧
      ∀ g ∈ handle_synthesize vEnc engineSr parse voiceRef chunks streamErr,
        g.isMetadata = false ∧ g.isAudio = false ∧ g.isComplete = false := by
  subst hp
  subst hv
  refine ⟨rfl, ?_⟩
  intro g hg
  rcases List.mem_singleton.mp hg with rfl
  exact ⟨rfl, rfl, rfl⟩

/-- C9, witness: the theorem at a request for the unknown voice
"missing". -/
theorem claim_C9_witness :
    ((Except.ok ⟨"missing", "clone", .pcm, none⟩ : Except String TTSReq) =
        .ok ⟨"missing", "clone", .pcm, none⟩ ∧
      (none : Option (List ℚ)) = none) ∧
      handle_synthesize (fun _ _ => []) 24000
          (.ok ⟨"missing", "clone", .pcm, none⟩) none [] none =
        [Frame.error ("Voice not found in database: " ++ "missing")] :=
  ⟨⟨rfl, rfl⟩,
    (claim_C9_unknown_voice (fun _ _ => []) 24000
        (.ok ⟨"missing", "clone", .pcm, none⟩) none [] none
        ⟨"missing", "clone", .pcm, none⟩ rfl rfl).1⟩

/-- One message sent by the WebSocket `/tts/stream` endpoint: a JSON
status or error message, or a binary audio frame. -/
inductive WsFrame where
  | jsonStart (sample_rate : Nat) (audio_format : AudioFormat)
  | binary (data : List Byte)
  | jsonComplete
  | jsonError (msg : String)
  deriving DecidableEq, Repr

/-- The chunk loop of `websocket_tts`: every `encode_chunk` result is sent
with `send_bytes`, with no emptiness check. -/
def wsStreamLoop (enc : AudioStreamEncoder) :
    List (List ℚ) → AudioStreamEncoder × List WsFrame
  | [] => (enc, [])
  | c :: cs =>
    let r := encode_chunk enc c
    let rest := wsStreamLoop r.1 cs
    (rest.1, .binary r.2 :: rest.2)

/-- `websocket_tts` from `rest_routes/generation.py`, as a function from
the outcome of each effectful step to the messages it sends.  After the
stream ends it sends a bare complete status: the function body contains no
call to the encoder's `finalize` and no chunk count. -/
def websocket_tts (vEnc : VorbisEnc) (engineSr : Nat) (authOk : Bool)
    (parse : Except String TTSReq) (voiceRef : Option (List ℚ))
    (chunks : List (List ℚ)) (streamErr : Option String) : List WsFrame :=
  if authOk = false then [.jsonError "Invalid API key"]
  else
    match parse with
    | .error e => [.jsonError ("Invalid request: " ++ e)]
    | .ok req =>
      if req.voice_mode = "clone" ∧ voiceRef = none then
        [.jsonError ("Voice not found: " ++ req.voice_id)]
      else
        let sr := req.sample_rate.getD engineSr
        let r := wsStreamLoop (mkEncoder req.audio_format sr) chunks
        .jsonStart sr req.audio_format ::
          (r.2 ++
            match streamErr with
            | some m => [.jsonError m]
            | none => [.jsonComplete])

/-- C6, failing run.  A WAV synthesis over the WebSocket front-end that
consumes its one-chunk stream to the end sends only an empty binary frame
and a bare complete: `finalize()` is never called, so the accumulated WAV
encoding (non-empty: it begins with the 44-byte header) appears in no
frame, and the complete status carries no chunk count.  This contradicts
the contract the ZMQ front-end and `TTSService.encode_audio_stream`
implement for the same codec. -/
theorem claim_C6_websocket_drops_wav :
    websocket_tts (fun _ _ => []) 24000 true
        (.ok ⟨"v1", "clone", .wav, none⟩) (some []) [[0]] none =
      [.jsonStart 24000 .wav, .binary [], .jsonComplete] ∧
      encode_wav_complete [0] 24000 ≠ [] ∧
      WsFrame.binary (encode_wav_complete [0] 24000) ∉
        websocket_tts (fun _ _ => []) 24000 true
          (.ok ⟨"v1", "clone", .wav, none⟩) (some []) [[0]] none := by
  have hne : encode_wav_complete [0] 24000 ≠ [] := by
    simp [encode_wav_complete, encode_wav_header, u32le, u16le]
  refine ⟨rfl, hne, ?_⟩
  intro hmem
  have hrun : websocket_tts (fun _ _ => []) 24000 true
      (.ok ⟨"v1", "clone", .wav, none⟩) (some []) [[0]] none =
      [.jsonStart 24000 .wav, .binary [], .jsonComplete] := rfl
  rw [hrun] at hmem
  simp only [List.mem_cons, List.mem_singleton, List.not_mem_nil,
    or_false] at hmem
  rcases hmem with h | h | h
  · exact absurd h (by simp)
  · injection h with h2
    exact hne h2
  · exact absurd h (by simp)

/-- The state of `ChatterboxTTSEngine` that the lifecycle methods touch:
whether the regular and turbo model handles are set, the `_is_offloaded`
flag, the last-activity timestamp, and whether the inactivity-monitor
task is running.  A fresh engine has no models and no monitor. -/
structure EngineState where
  model_regular : Bool
  model_turbo : Bool
  is_offloaded : Bool
  last_activity_time : Option Nat
  monitor_running : Bool
  deriving DecidableEq, Repr

/-- `ChatterboxTTSEngine.__init__`. -/
def engineInit : EngineState :=
  ⟨false, false, false, none, false⟩

/-- Timeout and keep-warm configuration of the engine. -/
structure EngineConfig where
  inactivity_timeout : Nat
  keep_warm : Bool
  deriving DecidableEq, Repr

/-- `_start_inactivity_monitor`: does nothing when `keep_warm` is set,
otherwise ensures the monitor task is running. -/
def start_inactivity_monitor (cfg : EngineConfig) (s : EngineState) :
    EngineState :=
  if cfg.keep_warm then s else { s with monitor_running := true }

/-- `initialize` (successful load): set the regular model handle, record
the activity time, clear the offloaded flag, and start the monitor only
when `keep_warm` is disabled.  The body contains no suspending await, so
within the event loop it runs atomically. -/
def engineInitialize (cfg : EngineConfig) (now : Nat) (s : EngineState) :
    EngineState :=
  start_inactivity_monitor cfg
    { s with
        model_regular := true,
        last_activity_time := some now,
        is_offloaded := false }

/-- `offload_model`: a no-op when already offloaded, otherwise clears both
model handles and sets the offloaded flag. -/
def offload_model (s : EngineState) : EngineState :=
  if s.is_offloaded then s
  else
    { s with
        model_regular := false,
        model_turbo := false,
        is_offloaded := true }

/-- `is_loaded`. -/
def engineIsLoaded (s : EngineState) : Bool :=
  s.model_regular && !s.is_offloaded

/-- `_ensure_loaded`: reload via `initialize` when offloaded or never
loaded, then stamp the activity time and clear the offloaded flag.  The
returned flag records whether a (slow) model load was performed.  Awaiting
`initialize` does not suspend (neither coroutine awaits an I/O future), so
a whole `_ensure_loaded` call runs atomically in the event loop: any two
concurrent callers execute in one of the two serial orders. -/
def ensure_loaded (cfg : EngineConfig) (now : Nat) (s : EngineState) :
    EngineState × Bool :=
  if s.is_offloaded || !s.model_regular then
    let s1 := engineInitialize cfg now s
    ({ s1 with last_activity_time := some now, is_offloaded := false }, true)
  else
    ({ s with last_activity_time := some now, is_offloaded := false }, false)

/-- One wake-up of `_monitor_inactivity` at time `now`: if the monitor
task is running, an activity time is recorded, the model is not offloaded
and the inactivity duration has reached the timeout, offload the model. -/
def monitor_wake (cfg : EngineConfig) (now : Nat) (s : EngineState) :
    EngineState :=
  if s.monitor_running then
    match s.last_activity_time with
    | some a =>
      if s.is_offloaded = false ∧ a + cfg.inactivity_timeout ≤ now then
        offload_model s
      else s
    | none => s
  else s

/-- C4.  After any `_ensure_loaded` call the model is loaded, and a second
`_ensure_loaded` call — in particular a concurrent caller, which by the
atomicity of the call runs in one of the two serial orders — never
performs a second load: at most one of the two calls loads. -/
theorem claim_C4_single_load (cfg : EngineConfig) (s : EngineState)
    (t1 t2 : Nat) :
    engineIsLoaded (ensure_loaded cfg t1 s).1 = true ∧
      (ensure_loaded cfg t2 (ensure_loaded cfg t1 s).1).2 = false ∧
      ((if (ensure_loaded cfg t1 s).2 then 1 else 0) +
        (if (ensure_loaded cfg t2 (ensure_loaded cfg t1 s).1).2 then 1
          else 0) ≤ 1) := by
  have hload : ∀ u : Nat, engineIsLoaded (ensure_loaded cfg u s).1 = true := by
    intro u
    unfold ensure_loaded engineInitialize start_inactivity_monitor
      engineIsLoaded
    by_cases h : s.is_offloaded || !s.model_regular <;>
      by_cases hk : cfg.keep_warm <;> simp_all
  have hgen : ∀ s1 : EngineState, engineIsLoaded s1 = true →
      (ensure_loaded cfg t2 s1).2 = false := by
    intro s1 h1
    have hoff : s1.is_offloaded = false := by
      unfold engineIsLoaded at h1
      cases hx : s1.is_offloaded <;> simp_all
    have hmr : s1.model_regular = true := by
      unfold engineIsLoaded at h1
      cases hx : s1.model_regular <;> simp_all
    unfold ensure_loaded
    rw [if_neg (by simp [hoff, hmr])]
  have hsecond : (ensure_loaded cfg t2 (ensure_loaded cfg t1 s).1).2 =
      false := hgen _ (hload t1)
  refine ⟨hload t1, hsecond, ?_⟩
  rw [hsecond]
  by_cases h : (ensure_loaded cfg t1 s).2 <;> simp [h]

lemma monitor_wake_offloaded (cfg : EngineConfig) (now : Nat)
    (s : EngineState) (h : s.is_offloaded = true) :
    monitor_wake cfg now s = s := by
  unfold monitor_wake
  by_cases hm : s.monitor_running
  · cases ha : s.last_activity_time with
    | none => simp [hm, ha]
    | some a => simp [hm, ha, h]
  · simp [hm]

lemma monitor_wake_fields (cfg : EngineConfig) (now : Nat)
    (s : EngineState) :
    (monitor_wake cfg now s).last_activity_time = s.last_activity_time ∧
      (monitor_wake cfg now s).monitor_running = s.monitor_running ∧
      (s.is_offloaded = true →
        (monitor_wake cfg now s).is_offloaded = true) := by
  unfold monitor_wake offload_model
  by_cases hm : s.monitor_running
  · cases ha : s.last_activity_time with
    | none => simp [hm, ha]
    | some a =>
      by_cases hc : s.is_offloaded = false ∧ a + cfg.inactivity_timeout ≤ now
      · simp only [hm, ha, if_true, if_pos hc]
        rcases hc with ⟨hc1, _⟩
        simp [hc1]
      · simp [hm, ha, hc]
  · simp [hm]

lemma monitor_wake_fires (cfg : EngineConfig) (now a : Nat)
    (s : EngineState) (hm : s.monitor_running = true)
    (ha : s.last_activity_time = some a)
    (ht : a + cfg.inactivity_timeout ≤ now) :
    (monitor_wake cfg now s).is_offloaded = true := by
  cases ho : s.is_offloaded with
  | false => simp [monitor_wake, offload_model, hm, ha, ht, ho]
  | true => simp [monitor_wake, hm, ha, ho]

lemma foldl_wake_offloaded (cfg : EngineConfig) (trace : List Nat)
    (s : EngineState) (h : s.is_offloaded = true) :
    (trace.foldl (fun st t => monitor_wake cfg t st) s).is_offloaded =
      true := by
  induction trace generalizing s with
  | nil => exact h
  | cons t ts ih =>
    exact ih _ ((monitor_wake_fields cfg t s).2.2 h)

/-- C5.  With `keep_warm` disabled, once a monitor wake-up occurs at or
after `inactivity_timeout` seconds past the load's activity stamp with no
intervening `_ensure_loaded` activity, the model ends (and stays) not
loaded.  With `keep_warm` enabled on a fresh engine, the monitor is never
started and no sequence of wake-ups changes the state at all: the model
stays loaded. -/
theorem claim_C5_inactivity_offload (T a : Nat) (s : EngineState)
    (trace : List Nat) :
    ((∃ t ∈ trace, a + T ≤ t) →
        engineIsLoaded (trace.foldl
          (fun st t => monitor_wake ⟨T, false⟩ t st)
          (engineInitialize ⟨T, false⟩ a s)) = false) ∧
      (∀ s2 : EngineState, s2.monitor_running = false →
        (trace.foldl (fun st t => monitor_wake ⟨T, true⟩ t st)
            (engineInitialize ⟨T, true⟩ a s2) =
          engineInitialize ⟨T, true⟩ a s2) ∧
        engineIsLoaded (engineInitialize ⟨T, true⟩ a s2) = true) := by
  constructor
  · intro hex
    have key : ∀ (tr : List Nat) (st : EngineState),
        st.monitor_running = true → st.last_activity_time = some a →
        (∃ t ∈ tr, a + T ≤ t) →
        (tr.foldl (fun st t => monitor_wake ⟨T, false⟩ t st)
          st).is_offloaded = true := by
      intro tr
      induction tr with
      | nil => intro st _ _ hex2; simp at hex2
      | cons t ts ih =>
        intro st hm ha hex2
        rw [List.foldl_cons]
        by_cases hoff : st.is_offloaded = true
        · exact foldl_wake_offloaded _ _ _
            ((monitor_wake_fields ⟨T, false⟩ t st).2.2 hoff)
        · rcases hex2 with ⟨u, hu, hle⟩
          rcases List.mem_cons.mp hu with rfl | hu2
          · exact foldl_wake_offloaded _ _ _
              (monitor_wake_fires ⟨T, false⟩ u a st hm ha hle)
          · exact ih _
              ((monitor_wake_fields ⟨T, false⟩ t st).2.1.symm ▸ hm)
              ((monitor_wake_fields ⟨T, false⟩ t st).1.symm ▸ ha)
              ⟨u, hu2, hle⟩
    have hm : (engineInitialize ⟨T, false⟩ a s).monitor_running = true := by
      simp [engineInitialize, start_inactivity_monitor]
    have ha : (engineInitialize ⟨T, false⟩ a s).last_activity_time =
        some a := by
      simp [engineInitialize, start_inactivity_monitor]
    have := key trace _ hm ha hex
    unfold engineIsLoaded
    rw [this]
    simp
  · intro s2 h2
    have hm : (engineInitialize ⟨T, true⟩ a s2).monitor_running = false := by
      simp [engineInitialize, start_inactivity_monitor, h2]
    constructor
    · have : ∀ (tr : List Nat) (st : EngineState),
          st.monitor_running = false →
          tr.foldl (fun st t => monitor_wake ⟨T, true⟩ t st) st = st := by
        intro tr
        induction tr with
        | nil => intro st _; rfl
        | cons t ts ih =>
          intro st hst
          rw [List.foldl_cons]
          have hw : monitor_wake ⟨T, true⟩ t st = st := by
            unfold monitor_wake
            rw [hst]
            simp
          rw [hw]
          exact ih st hst
      exact this trace _ hm
    · simp [engineInitialize, start_inactivity_monitor, engineIsLoaded]

/-- C5, witness: timeout 600 with activity stamp 0 and a wake-up at 600
offloads; with keep-warm on a fresh engine the same wake trace is a
no-op. -/
theorem claim_C5_witness :
    ((∃ t ∈ [600], 0 + 600 ≤ t) ∧ engineInit.monitor_running = false) ∧
      engineIsLoaded ([600].foldl
        (fun st t => monitor_wake ⟨600, false⟩ t st)
        (engineInitialize ⟨600, false⟩ 0 engineInit)) = false ∧
      [600].foldl (fun st t => monitor_wake ⟨600, true⟩ t st)
          (engineInitialize ⟨600, true⟩ 0 engineInit) =
        engineInitialize ⟨600, true⟩ 0 engineInit :=
  ⟨⟨⟨600, by decide, by decide⟩, rfl⟩,
    (claim_C5_inactivity_offload 600 0 engineInit [600]).1
      ⟨600, by decide, by decide⟩,
    ((claim_C5_inactivity_offload 600 0 engineInit [600]).2 engineInit
      rfl).1⟩

end Chatterbox
